import Mathlib

/-!
# PROFIBUS physical layer: wire constants and telegram layouts

Shallow embedding of `cp-phy/firmware/profibus-phy.h`: the enumerations
`pb_phy_baud`, `pb_sd`, `pb_ed`, and the byte layouts of the members of the
union inside `struct pb_telegram`.  Bytes are natural numbers below 256.

The header only declares `pb_sdr`, `pb_sdn` and has no codec functions; the
classifier, the fixed 8-byte codec and the busy check of the send calls are
modelled from the design document and marked as such.
-/

namespace Profibus

/-! ## Enumerations -/

/-- Enumeration `enum pb_phy_baud` (profibus-phy.h, lines 9-20). -/
inductive pb_phy_baud where
  | PB_PHY_BAUD_9600
  | PB_PHY_BAUD_19200
  | PB_PHY_BAUD_45450
  | PB_PHY_BAUD_93750
  | PB_PHY_BAUD_187500
  | PB_PHY_BAUD_500000
  | PB_PHY_BAUD_1500000
  | PB_PHY_BAUD_3000000
  | PB_PHY_BAUD_6000000
  | PB_PHY_BAUD_12000000
  deriving DecidableEq

/-- Integer value of a baud enumerator.  The C enumeration gives no explicit
values, so the first enumerator is 0 and each next one is one more. -/
def pb_phy_baud.val : pb_phy_baud → Nat
  | .PB_PHY_BAUD_9600 => 0
  | .PB_PHY_BAUD_19200 => 1
  | .PB_PHY_BAUD_45450 => 2
  | .PB_PHY_BAUD_93750 => 3
  | .PB_PHY_BAUD_187500 => 4
  | .PB_PHY_BAUD_500000 => 5
  | .PB_PHY_BAUD_1500000 => 6
  | .PB_PHY_BAUD_3000000 => 7
  | .PB_PHY_BAUD_6000000 => 8
  | .PB_PHY_BAUD_12000000 => 9

/-- Bit rate (bit/s) that the identifier of a baud enumerator names. -/
def pb_phy_baud.rate : pb_phy_baud → Nat
  | .PB_PHY_BAUD_9600 => 9600
  | .PB_PHY_BAUD_19200 => 19200
  | .PB_PHY_BAUD_45450 => 45450
  | .PB_PHY_BAUD_93750 => 93750
  | .PB_PHY_BAUD_187500 => 187500
  | .PB_PHY_BAUD_500000 => 500000
  | .PB_PHY_BAUD_1500000 => 1500000
  | .PB_PHY_BAUD_3000000 => 3000000
  | .PB_PHY_BAUD_6000000 => 6000000
  | .PB_PHY_BAUD_12000000 => 12000000

/-- Enumerators of `enum pb_phy_baud` in declaration order. -/
def pb_phy_baud.all : List pb_phy_baud :=
  [.PB_PHY_BAUD_9600, .PB_PHY_BAUD_19200, .PB_PHY_BAUD_45450, .PB_PHY_BAUD_93750,
   .PB_PHY_BAUD_187500, .PB_PHY_BAUD_500000, .PB_PHY_BAUD_1500000,
   .PB_PHY_BAUD_3000000, .PB_PHY_BAUD_6000000, .PB_PHY_BAUD_12000000]

/-- Enumeration `enum pb_sd` (profibus-phy.h, lines 22-28). -/
inductive pb_sd where
  | PB_SD1
  | PB_SD2
  | PB_SD3
  | PB_SD4
  | PB_SC
  deriving DecidableEq

/-- Integer value of a start-delimiter enumerator, as written in the header. -/
def pb_sd.val : pb_sd → Nat
  | .PB_SD1 => 0x10
  | .PB_SD2 => 0x68
  | .PB_SD3 => 0xA2
  | .PB_SD4 => 0xDC
  | .PB_SC => 0xE5

/-- Enumerators of `enum pb_sd` in declaration order. -/
def pb_sd.all : List pb_sd := [.PB_SD1, .PB_SD2, .PB_SD3, .PB_SD4, .PB_SC]

/-- Enumeration `enum pb_ed` (profibus-phy.h, lines 30-32): its single
enumerator `PB_ED = 0x16`. -/
def PB_ED : Nat := 0x16

/-! ## Telegram variants and classification -/

/-- The five telegram shapes named by the data model. -/
inductive Variant where
  | Token
  | ShortAck
  | Fixed0
  | Fixed8
  | VariableLength
  deriving DecidableEq

/-- Modelled from the spec: the start-delimiter column of the telegram table
(section 3).  The header declares the enumerators and the five structs but
does not pair them; the pairing below is that of the table. -/
def Variant.sd : Variant → pb_sd
  | .Token => .PB_SD1
  | .ShortAck => .PB_SC
  | .Fixed0 => .PB_SD4
  | .Fixed8 => .PB_SD3
  | .VariableLength => .PB_SD2

/-- Shapes in the order of the table. -/
def Variant.all : List Variant :=
  [.Token, .ShortAck, .Fixed0, .Fixed8, .VariableLength]

/-- Errors of the telegram codec (error taxonomy, section 7). -/
inductive CodecError where
  | MalformedTelegram
  | ChecksumMismatch
  | FramingError
  deriving DecidableEq

/-- The shapes whose discriminator constant equals the byte `b`. -/
def selectedBy (b : Nat) : List Variant :=
  Variant.all.filter (fun v => v.sd.val == b)

/-- Modelled from the spec: `classify` of section 4.1, whose code is not in
the header.  It inspects the first byte of the buffer and returns the shape
whose delimiter it is, or signals malformation when the byte matches none of
the defined delimiters (an empty buffer has no first byte). -/
def classify (buffer : List Nat) : Except CodecError Variant :=
  match buffer with
  | [] => .error .MalformedTelegram
  | b :: _ =>
    if b = pb_sd.PB_SD1.val then .ok .Token
    else if b = pb_sd.PB_SC.val then .ok .ShortAck
    else if b = pb_sd.PB_SD4.val then .ok .Fixed0
    else if b = pb_sd.PB_SD3.val then .ok .Fixed8
    else if b = pb_sd.PB_SD2.val then .ok .VariableLength
    else .error .MalformedTelegram

/-! ## Bit distance between bytes -/

/-- Number of set bits among the low eight bits of `m`. -/
def popcount8 (m : Nat) : Nat :=
  ((List.range 8).filter (fun i => m.testBit i)).length

/-- Hamming distance of two bytes: the number of the eight bit positions in
which they differ. -/
def hamming8 (a b : Nat) : Nat := popcount8 (a ^^^ b)

/-! ## Byte layouts of the telegram structs -/

/-- Member names used by the structs inside `struct pb_telegram`. -/
inductive FieldName where
  | sd_a
  | le
  | ler
  | sd_b
  | da
  | sa
  | fc
  | data
  | sd
  | fcs
  | ed
  deriving DecidableEq

/-- One member of a struct: its name and its size in bytes (`uint8_t x` has
size 1, `uint8_t x[n]` has size `n`). -/
structure Member where
  name : FieldName
  size : Nat
  deriving DecidableEq

/-- A struct as the list of its members in declaration order.  Every member of
the header is `uint8_t` or an array of it (alignment 1), so members follow each
other without padding. -/
abbrev StructLayout := List Member

/-- Size in bytes of a struct: `sizeof`. -/
def sizeofStruct (l : StructLayout) : Nat := (l.map Member.size).sum

/-- Byte offset of the member `f` in a struct: `offsetof`. -/
def offsetof : StructLayout → FieldName → Option Nat
  | [], _ => none
  | m :: ms, f => if m.name = f then some 0 else (offsetof ms f).map (fun o => o + m.size)

/-- For each byte offset of a struct, the member which that byte belongs to. -/
def byteMap (l : StructLayout) : List FieldName :=
  l.flatMap (fun m => List.replicate m.size m.name)

/-- Layout `struct pb_telegram_variable_length` (lines 36-45). -/
def pb_telegram_variable_length : StructLayout :=
  [⟨.sd_a, 1⟩, ⟨.le, 1⟩, ⟨.ler, 1⟩, ⟨.sd_b, 1⟩, ⟨.da, 1⟩, ⟨.sa, 1⟩, ⟨.fc, 1⟩,
   ⟨.data, 246 + 1 + 1⟩]

/-- Layout `struct pb_telegram_static_8_bytes` (lines 47-55). -/
def pb_telegram_static_8_bytes : StructLayout :=
  [⟨.sd, 1⟩, ⟨.da, 1⟩, ⟨.sa, 1⟩, ⟨.fc, 1⟩, ⟨.data, 8⟩, ⟨.fcs, 1⟩, ⟨.ed, 1⟩]

/-- Layout `struct pb_telegram_static_0_bytes` (lines 57-64). -/
def pb_telegram_static_0_bytes : StructLayout :=
  [⟨.sd, 1⟩, ⟨.da, 1⟩, ⟨.sa, 1⟩, ⟨.fc, 1⟩, ⟨.fcs, 1⟩, ⟨.ed, 1⟩]

/-- Layout `struct pb_telegram_token` (lines 66-70). -/
def pb_telegram_token : StructLayout := [⟨.sd, 1⟩, ⟨.da, 1⟩, ⟨.sa, 1⟩]

/-- Layout `struct pb_telegram_ack` (lines 72-74). -/
def pb_telegram_ack : StructLayout := [⟨.sd, 1⟩]

/-- The bare member `uint8_t sd` of the union (line 76). -/
def pb_telegram_sd : StructLayout := [⟨.sd, 1⟩]

/-- The anonymous union of `struct pb_telegram`: its members `var`, `stat8`,
`stat0`, `token`, `ack`, `sd`, each starting at the first byte of the union. -/
def pb_telegram_union : List StructLayout :=
  [pb_telegram_variable_length, pb_telegram_static_8_bytes, pb_telegram_static_0_bytes,
   pb_telegram_token, pb_telegram_ack, pb_telegram_sd]

/-- Size of a union: the size of its largest member. -/
def sizeofUnion (u : List StructLayout) : Nat :=
  u.foldl (fun acc l => max acc (sizeofStruct l)) 0

/-- Size of `struct pb_telegram`, whose only member is the union. -/
def sizeof_pb_telegram : Nat := sizeofUnion pb_telegram_union

/-- Number of elements of the array `data` of the variable-length struct. -/
def var_data_capacity : Nat :=
  match pb_telegram_variable_length.find? (fun m => m.name = .data) with
  | some m => m.size
  | none => 0

/-- Read the member `f` of the union member `l` from a telegram buffer: the
byte at the offset of the member. -/
def readField (buf : List Nat) (l : StructLayout) (f : FieldName) : Option Nat :=
  match offsetof l f with
  | some o => buf[o]?
  | none => none

/-- Index in `var.data` of the FCS byte for a payload of `n` bytes (the
comment of line 44: data, then fcs, then ed). -/
def var_fcs_index (n : Nat) : Nat := n

/-- Index in `var.data` of the end delimiter for a payload of `n` bytes. -/
def var_ed_index (n : Nat) : Nat := n + 1

/-! ## Codec of the fixed 8-byte frame -/

/-- Field set of a fixed 8-byte telegram: the members `da`, `sa`, `fc`, `data`
of `struct pb_telegram_static_8_bytes`. -/
structure Fixed8Fields where
  da : Nat
  sa : Nat
  fc : Nat
  data : List Nat
  deriving DecidableEq

/-- A field set is within bounds when the payload has 8 bytes and every field
is a byte. -/
def Fixed8Fields.valid (f : Fixed8Fields) : Prop :=
  f.data.length = 8 ∧ f.da < 256 ∧ f.sa < 256 ∧ f.fc < 256 ∧ ∀ x ∈ f.data, x < 256

instance (f : Fixed8Fields) : Decidable f.valid := by
  unfold Fixed8Fields.valid
  infer_instance

/-- Modelled from the spec: the frame check sequence of section 3, whose code
is not in the header: the arithmetic sum modulo 256 of the bytes from the
destination address through the end of the payload. -/
def fcs (bytes : List Nat) : Nat := bytes.sum % 256

/-- Modelled from the spec: `encode` of section 4.1 for the fixed 8-byte
variant, whose code is not in the header.  The fields are laid out in the member
order of `struct pb_telegram_static_8_bytes`, the FCS is computed over
destination through payload and the end delimiter is appended. -/
def encodeFixed8 (f : Fixed8Fields) : List Nat :=
  [pb_sd.PB_SD3.val, f.da, f.sa, f.fc] ++ f.data ++ [fcs (f.da :: f.sa :: f.fc :: f.data), PB_ED]

/-- Modelled from the spec: `decode` of section 4.1 for the fixed 8-byte
variant, whose code is not in the header.  The buffer is classified by its
first byte, the end delimiter is validated, the FCS is recomputed and compared
with the transmitted one; any mismatch is reported. -/
def decodeFixed8 (buffer : List Nat) : Except CodecError Fixed8Fields :=
  match classify buffer with
  | .error e => .error e
  | .ok v =>
    if v ≠ .Fixed8 then .error .MalformedTelegram
    else
      match buffer with
      | [_, da, sa, fc, d0, d1, d2, d3, d4, d5, d6, d7, fcsByte, ed] =>
        if ed ≠ PB_ED then .error .FramingError
        else if fcs [da, sa, fc, d0, d1, d2, d3, d4, d5, d6, d7] ≠ fcsByte then
          .error .ChecksumMismatch
        else .ok ⟨da, sa, fc, [d0, d1, d2, d3, d4, d5, d6, d7]⟩
      | _ => .error .FramingError

/-- The field set of the scenario of section 8: destination 3, source 7,
function code 0x7C, payload 8 bytes of 0xAA. -/
def scenarioFields : Fixed8Fields := ⟨3, 7, 0x7C, List.replicate 8 0xAA⟩

/-! ## Send entry points of the transaction state machine -/

/-- States of the transaction state machine (section 4.2). -/
inductive TxState where
  | Idle
  | Transmitting
  | AwaitingReply
  | Complete
  | Failed
  deriving DecidableEq

/-- Kind of a transaction. -/
inductive TxKind where
  | SDR
  | SDN
  deriving DecidableEq

/-- Immediate outcome of a send call. -/
inductive Status where
  | Accepted
  | Busy
  | MalformedTelegram
  deriving DecidableEq

/-- The values returned for the two synchronous errors.  The header fixes the
return type (`int8_t`) but not the values, so they are parameters. -/
structure StatusCodes where
  busy : Int
  malformed : Int

/-- Status codes as section 6 describes them: error kinds are negative, and
they fit the `int8_t` of the header. -/
def StatusCodes.wf (c : StatusCodes) : Prop :=
  -128 ≤ c.busy ∧ c.busy < 0 ∧ -128 ≤ c.malformed ∧ c.malformed < 0

instance (c : StatusCodes) : Decidable c.wf := by
  unfold StatusCodes.wf
  infer_instance

/-- The `int8_t` returned for a status: zero means success. -/
def Status.code (c : StatusCodes) : Status → Int
  | .Accepted => 0
  | .Busy => c.busy
  | .MalformedTelegram => c.malformed

/-- The transaction state machine: its state, and the transaction in flight
(kind and borrowed telegram buffer), and the bytes handed to the byte-I/O
collaborator so far. -/
structure Machine where
  state : TxState
  kind : Option TxKind
  telegram : List Nat
  line : List Nat
  deriving DecidableEq

/-- Shared entry path of the two send calls (section 4.2): reject with busy
when not idle; on acceptance validate the telegram through the codec (here the
parameter `wellFormed`), rejecting malformed input before touching the line;
then transition to transmitting and hand the bytes to the byte-I/O
collaborator. -/
def send (kind : TxKind) (wellFormed : List Nat → Bool) (m : Machine) (t : List Nat) :
    Status × Machine :=
  if m.state ≠ .Idle then (.Busy, m)
  else if wellFormed t = false then (.MalformedTelegram, m)
  else (.Accepted, ⟨.Transmitting, some kind, t, m.line ++ t⟩)

/-- Modelled from the spec: `send_with_reply` of section 4.2, the entry
point `pb_sdr`, of which the header has only the declaration (line 80). -/
def pb_sdr (wellFormed : List Nat → Bool) (m : Machine) (t : List Nat) : Status × Machine :=
  send .SDR wellFormed m t

/-- Modelled from the spec: `send_no_reply` of section 4.2, the entry
point `pb_sdn`, of which the header has only the declaration (line 81). -/
def pb_sdn (wellFormed : List Nat → Bool) (m : Machine) (t : List Nat) : Status × Machine :=
  send .SDN wellFormed m t

/-! ## Theorems on the enumerations -/

/-- Injectivity of the discriminator values on the enumerators. -/
theorem pb_sd_val_injective (s t : pb_sd) (h : s.val = t.val) : s = t := by
  cases s <;> cases t <;> first | rfl | (exact absurd h (by decide))

/-- Classification of a non-empty buffer succeeds with `v` exactly when the
first byte is the delimiter of `v`. -/
theorem classify_cons_ok_iff (b : Nat) (rest : List Nat) (v : Variant) :
    classify (b :: rest) = .ok v ↔ b = v.sd.val := by
  simp only [classify, pb_sd.val]
  constructor
  · intro h
    split_ifs at h with h1 h2 h3 h4 h5 <;> cases h <;> simpa [Variant.sd, pb_sd.val]
  · intro h
    cases v <;> simp [Variant.sd, pb_sd.val] at h <;> subst h <;> simp

/-- Selection by a byte agrees with the classifier on a buffer that starts with
that byte. -/
theorem selectedBy_eq_classify (b : Nat) (rest : List Nat) :
    selectedBy b =
      (match classify (b :: rest) with
       | .ok v => [v]
       | .error _ => []) := by
  simp only [selectedBy, classify, Variant.all, Variant.sd, pb_sd.val, List.filter]
  split_ifs with h1 h2 h3 h4 h5
  · subst h1; rfl
  · subst h2; rfl
  · subst h3; rfl
  · subst h4; rfl
  · subst h5; rfl
  · have e1 : (16 == b) = false := by simpa using fun h => h1 h.symm
    have e2 : (229 == b) = false := by simpa using fun h => h2 h.symm
    have e3 : (220 == b) = false := by simpa using fun h => h3 h.symm
    have e4 : (162 == b) = false := by simpa using fun h => h4 h.symm
    have e5 : (104 == b) = false := by simpa using fun h => h5 h.symm
    simp [e1, e2, e3, e4, e5]

/-- The classifier never reports an error other than malformation. -/
theorem classify_error (buffer : List Nat) (e : CodecError)
    (h : classify buffer = .error e) : e = .MalformedTelegram := by
  cases buffer with
  | nil => simp [classify] at h; exact h.symm
  | cons b rest =>
    simp only [classify] at h
    split_ifs at h
    cases h
    rfl

/-- Claim C1: the five discriminator constants of `enum pb_sd` are pairwise
distinct; for every byte `b` at most one of the five shapes is selected by `b`;
the classifier over the first byte returns the shape `v` exactly when `v` is the
one shape selected, and reports malformation exactly when no shape is
selected, so it never returns a shape together with an error and never leaves a
second selected shape aside. -/
theorem C1_classification_unambiguous :
    (pb_sd.all.map pb_sd.val).Nodup ∧
    (∀ s t : pb_sd, s.val = t.val ↔ s = t) ∧
    (∀ b : Nat, (selectedBy b).length ≤ 1) ∧
    (∀ (b : Nat) (rest : List Nat) (v : Variant),
      classify (b :: rest) = .ok v ↔ selectedBy b = [v]) ∧
    (∀ (b : Nat) (rest : List Nat) (v : Variant),
      classify (b :: rest) = .ok v ↔ b = v.sd.val) ∧
    (∀ (b : Nat) (rest : List Nat),
      classify (b :: rest) = .error .MalformedTelegram ↔ selectedBy b = []) ∧
    (∀ buffer : List Nat,
      (∃ v, classify buffer = .ok v) ∨ classify buffer = .error .MalformedTelegram) := by
  refine ⟨by decide, ?_, ?_, ?_, classify_cons_ok_iff, ?_, ?_⟩
  · intro s t
    exact ⟨pb_sd_val_injective s t, fun h => by rw [h]⟩
  · intro b
    rw [selectedBy_eq_classify b []]
    cases classify [b] <;> simp
  · intro b rest v
    rw [selectedBy_eq_classify b rest]
    cases h : classify (b :: rest) with
    | ok w => simp
    | error e => simp
  · intro b rest
    rw [selectedBy_eq_classify b rest]
    cases h : classify (b :: rest) with
    | ok w => simp
    | error e => simp [classify_error _ _ h]
  · intro buffer
    cases h : classify buffer with
    | ok w => exact Or.inl ⟨w, rfl⟩
    | error e => exact Or.inr (by rw [classify_error _ _ h])

/-- Instance of C1 at the byte 0x68: the classifier returns the variable-length
shape and that is the only shape selected. -/
theorem C1_classification_unambiguous_witness :
    classify [0x68, 0x04, 0x04] = .ok .VariableLength ∧
    selectedBy 0x68 = [.VariableLength] :=
  ⟨rfl,
   (C1_classification_unambiguous.2.2.2.1 0x68 [0x04, 0x04] .VariableLength).mp rfl⟩

/-- Claim C2: the wire constants have the values of the table: `PB_SD1` (token)
is 0x10, `PB_SD2` (variable length) is 0x68, `PB_SD3` (fixed 8-byte) is 0xA2,
`PB_SD4` (fixed 0-byte) is 0xDC, `PB_SC` (short acknowledge) is 0xE5, the end
delimiter `PB_ED` is 0x16, and each fits in one unsigned byte. -/
theorem C2_wire_constants :
    pb_sd.PB_SD1.val = 0x10 ∧ pb_sd.PB_SD2.val = 0x68 ∧ pb_sd.PB_SD3.val = 0xA2 ∧
    pb_sd.PB_SD4.val = 0xDC ∧ pb_sd.PB_SC.val = 0xE5 ∧ PB_ED = 0x16 ∧
    Variant.Token.sd.val = 0x10 ∧ Variant.VariableLength.sd.val = 0x68 ∧
    Variant.Fixed8.sd.val = 0xA2 ∧ Variant.Fixed0.sd.val = 0xDC ∧
    Variant.ShortAck.sd.val = 0xE5 ∧
    (∀ s : pb_sd, s.val < 256) ∧ PB_ED < 256 := by
  refine ⟨rfl, rfl, rfl, rfl, rfl, rfl, rfl, rfl, rfl, rfl, rfl, ?_, by decide⟩
  intro s
  cases s <;> decide

/-- Claim C8: `enum pb_phy_baud` has exactly ten enumerators, with the pairwise
distinct values 0 through 9; the first names 9600 bit/s and the last 12000000
bit/s; the enumerator value is strictly increasing in the named bit rate; and
every value of the type is one of the ten, so a function given on the ten cases
is total on the argument of `pb_phy_init`. -/
theorem C8_baud_enumerators :
    pb_phy_baud.all.length = 10 ∧
    pb_phy_baud.all.map pb_phy_baud.val = List.range 10 ∧
    (pb_phy_baud.all.map pb_phy_baud.val).Nodup ∧
    (pb_phy_baud.all.head?.map pb_phy_baud.rate = some 9600) ∧
    (pb_phy_baud.all.getLast?.map pb_phy_baud.rate = some 12000000) ∧
    pb_phy_baud.all.map pb_phy_baud.rate =
      [9600, 19200, 45450, 93750, 187500, 500000, 1500000, 3000000, 6000000, 12000000] ∧
    (∀ a b : pb_phy_baud, a.val < b.val ↔ a.rate < b.rate) ∧
    (∀ a b : pb_phy_baud, a.val = b.val ↔ a = b) ∧
    (∀ b : pb_phy_baud, b ∈ pb_phy_baud.all ∧ pb_phy_baud.all[b.val]? = some b) := by
  refine ⟨rfl, by decide, by decide, rfl, rfl, rfl, ?_, ?_, ?_⟩
  · intro a b
    cases a <;> cases b <;> decide
  · intro a b
    cases a <;> cases b <;> decide
  · intro b
    cases b <;> decide

/-- Distinct discriminator constants differ in at least four bit positions. -/
theorem pb_sd_distance (s t : pb_sd) (h : s ≠ t) : 4 ≤ hamming8 s.val t.val := by
  cases s <;> cases t <;> first | exact absurd rfl h | decide

/-- A byte has distance zero to itself. -/
theorem hamming8_self (a : Nat) : hamming8 a a = 0 := by
  simp [hamming8, popcount8]

/-- Claim C10: any two distinct discriminator constants of `enum pb_sd` differ
in at least 4 of the 8 bit positions, so a byte `e` at distance 1, 2 or 3 from a
discriminator `d` is not the value of any discriminator. -/
theorem C10_discriminator_distance :
    (∀ s t : pb_sd, s ≠ t → 4 ≤ hamming8 s.val t.val) ∧
    (∀ (d : pb_sd) (e : Nat), e < 256 → 1 ≤ hamming8 d.val e → hamming8 d.val e ≤ 3 →
      e ∉ pb_sd.all.map pb_sd.val) := by
  refine ⟨pb_sd_distance, ?_⟩
  intro d e _ h1 h3 hmem
  obtain ⟨t, _, rfl⟩ := List.mem_map.mp hmem
  by_cases hdt : d = t
  · subst hdt
    rw [hamming8_self] at h1
    omega
  · have := pb_sd_distance d t hdt
    omega

/-- Instance of C10: flipping bit 0 of `PB_SD1` gives 0x11, which is no
discriminator; and `PB_SD1`, `PB_SD2` differ in exactly four bits. -/
theorem C10_discriminator_distance_witness :
    hamming8 pb_sd.PB_SD1.val 0x11 = 1 ∧ 0x11 ∉ pb_sd.all.map pb_sd.val ∧
    4 ≤ hamming8 pb_sd.PB_SD1.val pb_sd.PB_SD2.val :=
  ⟨by decide,
   C10_discriminator_distance.2 .PB_SD1 0x11 (by decide) (by decide) (by decide),
   C10_discriminator_distance.1 .PB_SD1 .PB_SD2 (by decide)⟩

/-! ## Theorems on the layouts -/

/-- Claim C3: for every payload length `n` with `1 ≤ n ≤ 246`, the FCS index
`n` and the end-delimiter index `n + 1` lie inside `var.data` (capacity
246 + 1 + 1 = 248), the payload with FCS and end delimiter takes `n + 2` bytes
of it, and the whole frame, the 7 bytes before `data` plus `n + 2`, is at most
255 bytes, the size of `struct pb_telegram`; for `n = 247` the end delimiter no
longer fits in `var.data`. -/
theorem C3_variable_payload_bound (n : Nat) (h1 : 1 ≤ n) (h2 : n ≤ 246) :
    var_data_capacity = 248 ∧
    var_fcs_index n < var_data_capacity ∧
    var_ed_index n < var_data_capacity ∧
    var_ed_index n + 1 = n + 2 ∧
    n + 2 ≤ var_data_capacity ∧
    offsetof pb_telegram_variable_length .data = some 7 ∧
    7 + n + 2 ≤ sizeof_pb_telegram ∧
    sizeof_pb_telegram = 255 ∧
    sizeofStruct pb_telegram_variable_length = 255 ∧
    ¬ (var_ed_index 247 < var_data_capacity) := by
  have hc : var_data_capacity = 248 := by decide
  have hs : sizeof_pb_telegram = 255 := by decide
  refine ⟨hc, ?_, ?_, rfl, ?_, by decide, ?_, hs, by decide, by decide⟩
  · rw [hc]; simp only [var_fcs_index]; omega
  · rw [hc]; simp only [var_ed_index]; omega
  · rw [hc]; omega
  · rw [hs]; omega

/-- Instance of C3 at the largest payload, 246 bytes: the end delimiter is the
last element of `var.data` and the frame fills `struct pb_telegram`. -/
theorem C3_variable_payload_bound_witness :
    var_ed_index 246 < var_data_capacity ∧ 7 + 246 + 2 ≤ sizeof_pb_telegram :=
  have h := C3_variable_payload_bound 246 (by decide) (by decide)
  ⟨h.2.2.1, h.2.2.2.2.2.2.1⟩

/-- Refutation of C4 as stated: in `struct pb_telegram_variable_length` the
members `da`, `sa`, `fc` are not at byte offsets 3, 4, 5 and the payload does
not begin at byte offset 6. -/
theorem C4_counterexample :
    ¬ (offsetof pb_telegram_variable_length .le = some 1 ∧
       offsetof pb_telegram_variable_length .ler = some 2 ∧
       offsetof pb_telegram_variable_length .da = some 3 ∧
       offsetof pb_telegram_variable_length .sa = some 4 ∧
       offsetof pb_telegram_variable_length .fc = some 5 ∧
       offsetof pb_telegram_variable_length .data = some 6) := by
  decide

/-- Claim C4, amended: in the variable-length variant the members between the
start delimiter (`sd_a`, byte offset 0) and the payload are exactly, in
declaration order, `le`, `ler`, `sd_b`, `da`, `sa`, `fc`; they occupy byte
offsets 1, 2, 3, 4, 5, 6 and the payload `data` begins at byte offset 7. -/
theorem C4_variable_header_layout :
    pb_telegram_variable_length.map Member.name =
      [.sd_a, .le, .ler, .sd_b, .da, .sa, .fc, .data] ∧
    (byteMap pb_telegram_variable_length).take 8 =
      [.sd_a, .le, .ler, .sd_b, .da, .sa, .fc, .data] ∧
    offsetof pb_telegram_variable_length .sd_a = some 0 ∧
    offsetof pb_telegram_variable_length .le = some 1 ∧
    offsetof pb_telegram_variable_length .ler = some 2 ∧
    offsetof pb_telegram_variable_length .sd_b = some 3 ∧
    offsetof pb_telegram_variable_length .da = some 4 ∧
    offsetof pb_telegram_variable_length .sa = some 5 ∧
    offsetof pb_telegram_variable_length .fc = some 6 ∧
    offsetof pb_telegram_variable_length .data = some 7 := by
  decide

/-- Claim C5: the four non-variable shapes have the byte layout of the table
with no padding: the token is 3 bytes `sd, da, sa`; the short acknowledge is 1
byte `sd`; the fixed 0-byte frame is 6 bytes `sd, da, sa, fc, fcs, ed`; the
fixed 8-byte frame is 14 bytes `sd, da, sa, fc, data[0..7], fcs, ed`; in both
fixed frames the FCS byte directly follows the destination-through-payload
range and the end delimiter is the last byte. -/
theorem C5_fixed_shape_layouts :
    byteMap pb_telegram_token = [.sd, .da, .sa] ∧
    sizeofStruct pb_telegram_token = 3 ∧
    byteMap pb_telegram_ack = [.sd] ∧
    sizeofStruct pb_telegram_ack = 1 ∧
    byteMap pb_telegram_static_0_bytes = [.sd, .da, .sa, .fc, .fcs, .ed] ∧
    sizeofStruct pb_telegram_static_0_bytes = 6 ∧
    byteMap pb_telegram_static_8_bytes =
      [.sd, .da, .sa, .fc, .data, .data, .data, .data, .data, .data, .data, .data,
       .fcs, .ed] ∧
    sizeofStruct pb_telegram_static_8_bytes = 14 ∧
    offsetof pb_telegram_static_0_bytes .da = some 1 ∧
    offsetof pb_telegram_static_0_bytes .fc = some 3 ∧
    offsetof pb_telegram_static_0_bytes .fcs = some (3 + 1) ∧
    offsetof pb_telegram_static_0_bytes .ed = some (sizeofStruct pb_telegram_static_0_bytes - 1) ∧
    offsetof pb_telegram_static_8_bytes .da = some 1 ∧
    offsetof pb_telegram_static_8_bytes .data = some 4 ∧
    offsetof pb_telegram_static_8_bytes .fcs = some (4 + 8) ∧
    offsetof pb_telegram_static_8_bytes .ed = some (sizeofStruct pb_telegram_static_8_bytes - 1) ∧
    (∀ l ∈ [pb_telegram_token, pb_telegram_ack, pb_telegram_static_0_bytes,
            pb_telegram_static_8_bytes], (byteMap l).length = sizeofStruct l) := by
  decide

/-- The bare member `sd` read from a buffer is the first byte of the buffer. -/
theorem readField_sd (buf : List Nat) : readField buf pb_telegram_sd .sd = buf.head? := by
  cases buf <;> simp [readField, offsetof, pb_telegram_sd]

/-- Claim C7: in each of the five overlapping layouts of `struct pb_telegram`
the discriminator member (`var.sd_a`, `stat8.sd`, `stat0.sd`, `token.sd`,
`ack.sd`) is at byte offset 0, as is the bare member `sd` of the union, so for every
buffer reading any of them yields the same first byte; the size of the union is that
of its largest member, 255 bytes. -/
theorem C7_discriminator_at_offset_zero :
    offsetof pb_telegram_variable_length .sd_a = some 0 ∧
    offsetof pb_telegram_static_8_bytes .sd = some 0 ∧
    offsetof pb_telegram_static_0_bytes .sd = some 0 ∧
    offsetof pb_telegram_token .sd = some 0 ∧
    offsetof pb_telegram_ack .sd = some 0 ∧
    offsetof pb_telegram_sd .sd = some 0 ∧
    (∀ buf : List Nat,
      readField buf pb_telegram_sd .sd = buf.head? ∧
      readField buf pb_telegram_variable_length .sd_a = readField buf pb_telegram_sd .sd ∧
      readField buf pb_telegram_static_8_bytes .sd = readField buf pb_telegram_sd .sd ∧
      readField buf pb_telegram_static_0_bytes .sd = readField buf pb_telegram_sd .sd ∧
      readField buf pb_telegram_token .sd = readField buf pb_telegram_sd .sd ∧
      readField buf pb_telegram_ack .sd = readField buf pb_telegram_sd .sd) ∧
    sizeof_pb_telegram = 255 ∧
    sizeof_pb_telegram = sizeofStruct pb_telegram_variable_length ∧
    (∀ l ∈ pb_telegram_union, sizeofStruct l ≤ sizeof_pb_telegram) := by
  refine ⟨rfl, rfl, rfl, rfl, rfl, rfl, ?_, by decide, by decide, by decide⟩
  intro buf
  exact ⟨readField_sd buf, rfl, rfl, rfl, rfl, rfl⟩

/-! ## Theorems on the fixed 8-byte codec -/

/-- A list of length 8 is a list of eight elements. -/
theorem list_length_eight (l : List Nat) (h : l.length = 8) :
    ∃ d0 d1 d2 d3 d4 d5 d6 d7, l = [d0, d1, d2, d3, d4, d5, d6, d7] := by
  rcases l with _ | ⟨d0, _ | ⟨d1, _ | ⟨d2, _ | ⟨d3, _ | ⟨d4, _ | ⟨d5, _ | ⟨d6, _ |
    ⟨d7, _ | ⟨d8, t⟩⟩⟩⟩⟩⟩⟩⟩⟩
  all_goals first
    | exact ⟨_, _, _, _, _, _, _, _, rfl⟩
    | (simp at h)

/-- The frame check sequence is a byte. -/
theorem fcs_lt (bytes : List Nat) : fcs bytes < 256 := by
  unfold fcs
  omega

/-- Claim C6: for every fixed 8-byte field set within bounds, `encode` gives a
14-byte frame of bytes laid out as `struct pb_telegram_static_8_bytes`, whose
FCS byte is `(da + sa + fc + sum of the 8 payload bytes) mod 256` (start and end
delimiter excluded), and `decode` of that buffer returns the original fields
with no error. -/
theorem C6_fixed8_roundtrip (f : Fixed8Fields) (h : f.valid) :
    (encodeFixed8 f).length = 14 ∧
    (encodeFixed8 f).length = sizeofStruct pb_telegram_static_8_bytes ∧
    readField (encodeFixed8 f) pb_telegram_static_8_bytes .sd = some pb_sd.PB_SD3.val ∧
    readField (encodeFixed8 f) pb_telegram_static_8_bytes .da = some f.da ∧
    readField (encodeFixed8 f) pb_telegram_static_8_bytes .sa = some f.sa ∧
    readField (encodeFixed8 f) pb_telegram_static_8_bytes .fc = some f.fc ∧
    ((encodeFixed8 f).drop 4).take 8 = f.data ∧
    readField (encodeFixed8 f) pb_telegram_static_8_bytes .fcs =
      some ((f.da + f.sa + f.fc + f.data.sum) % 256) ∧
    readField (encodeFixed8 f) pb_telegram_static_8_bytes .ed = some PB_ED ∧
    (∀ x ∈ encodeFixed8 f, x < 256) ∧
    classify (encodeFixed8 f) = .ok .Fixed8 ∧
    decodeFixed8 (encodeFixed8 f) = .ok f := by
  obtain ⟨da, sa, fc, data⟩ := f
  obtain ⟨hlen, hda, hsa, hfc, hdata⟩ := h
  simp only at hlen hda hsa hfc hdata
  obtain ⟨d0, d1, d2, d3, d4, d5, d6, d7, rfl⟩ := list_length_eight data hlen
  have hsum : fcs [da, sa, fc, d0, d1, d2, d3, d4, d5, d6, d7] =
      (da + sa + fc + [d0, d1, d2, d3, d4, d5, d6, d7].sum) % 256 := by
    simp only [fcs, List.sum_cons, List.sum_nil]
    congr 1
    omega
  have hcls : classify (encodeFixed8 ⟨da, sa, fc, [d0, d1, d2, d3, d4, d5, d6, d7]⟩) =
      .ok .Fixed8 := rfl
  refine ⟨rfl, rfl, rfl, rfl, rfl, rfl, rfl, ?_, rfl, ?_, hcls, ?_⟩
  · rw [← hsum]
    rfl
  · intro x hx
    simp only [encodeFixed8, List.cons_append, List.nil_append, List.mem_cons,
      List.mem_singleton, List.not_mem_nil, or_false] at hx
    have hf := fcs_lt [da, sa, fc, d0, d1, d2, d3, d4, d5, d6, d7]
    have hed : PB_ED < 256 := by decide
    have hsd : pb_sd.PB_SD3.val < 256 := by decide
    rcases hx with rfl | rfl | rfl | rfl | rfl | rfl | rfl | rfl | rfl | rfl | rfl | rfl | rfl | rfl
    · exact hsd
    · exact hda
    · exact hsa
    · exact hfc
    · exact hdata _ (by simp)
    · exact hdata _ (by simp)
    · exact hdata _ (by simp)
    · exact hdata _ (by simp)
    · exact hdata _ (by simp)
    · exact hdata _ (by simp)
    · exact hdata _ (by simp)
    · exact hdata _ (by simp)
    · exact hf
    · exact hed
  · simp only [decodeFixed8, hcls]
    simp [encodeFixed8]

/-- Instance of C6, the scenario of section 8: destination 3, source 7,
function code 0x7C, payload 8 bytes of 0xAA.  The FCS byte of the encoded frame
is `(3 + 7 + 0x7C + 8 * 0xAA) mod 256` and decoding returns the fields. -/
theorem C6_fixed8_roundtrip_witness :
    scenarioFields.valid ∧
    readField (encodeFixed8 scenarioFields) pb_telegram_static_8_bytes .fcs =
      some ((3 + 7 + 0x7C + 8 * 0xAA) % 256) ∧
    decodeFixed8 (encodeFixed8 scenarioFields) = .ok scenarioFields :=
  have hv : scenarioFields.valid := by decide
  have h := C6_fixed8_roundtrip scenarioFields hv
  ⟨hv, h.2.2.2.2.2.2.2.1, h.2.2.2.2.2.2.2.2.2.2.2⟩

/-! ## Theorems on the send entry points -/

/-- Claim C9: in every state in which a transaction is in flight (transmitting
or awaiting the reply), a call to `pb_sdr` or to `pb_sdn` returns the busy
status, a negative `int8_t`, and leaves the machine with the in-flight
transaction unchanged; zero is returned by either call only when the call is
accepted, which happens only from the idle state. -/
theorem C9_busy_while_in_flight (c : StatusCodes) (wellFormed : List Nat → Bool)
    (m : Machine) (t : List Nat) (hc : c.wf)
    (hm : m.state = .Transmitting ∨ m.state = .AwaitingReply) :
    pb_sdr wellFormed m t = (.Busy, m) ∧
    pb_sdn wellFormed m t = (.Busy, m) ∧
    (pb_sdr wellFormed m t).1.code c < 0 ∧ -128 ≤ (pb_sdr wellFormed m t).1.code c ∧
    (pb_sdn wellFormed m t).1.code c < 0 ∧ -128 ≤ (pb_sdn wellFormed m t).1.code c ∧
    (∀ (m0 : Machine) (t0 : List Nat), (pb_sdr wellFormed m0 t0).1.code c = 0 →
      (pb_sdr wellFormed m0 t0).1 = .Accepted ∧ m0.state = .Idle ∧
      (pb_sdr wellFormed m0 t0).2.state = .Transmitting) ∧
    (∀ (m0 : Machine) (t0 : List Nat), (pb_sdn wellFormed m0 t0).1.code c = 0 →
      (pb_sdn wellFormed m0 t0).1 = .Accepted ∧ m0.state = .Idle ∧
      (pb_sdn wellFormed m0 t0).2.state = .Transmitting) := by
  obtain ⟨hb1, hb2, hm1, hm2⟩ := hc
  have hne : m.state ≠ .Idle := by
    rcases hm with h | h <;> rw [h] <;> decide
  have hr : pb_sdr wellFormed m t = (.Busy, m) := by simp [pb_sdr, send, hne]
  have hn : pb_sdn wellFormed m t = (.Busy, m) := by simp [pb_sdn, send, hne]
  have hzero : ∀ (k : TxKind) (m0 : Machine) (t0 : List Nat),
      (send k wellFormed m0 t0).1.code c = 0 →
      (send k wellFormed m0 t0).1 = .Accepted ∧ m0.state = .Idle ∧
      (send k wellFormed m0 t0).2.state = .Transmitting := by
    intro k m0 t0 h0
    unfold send at h0 ⊢
    by_cases hi : m0.state = .Idle
    · by_cases hw : wellFormed t0 = false
      · simp [hi, hw, Status.code] at h0
        omega
      · simp [hi, hw]
    · simp [hi, Status.code] at h0
      omega
  refine ⟨hr, hn, ?_, ?_, ?_, ?_, hzero .SDR, hzero .SDN⟩
  · rw [hr]; exact hb2
  · rw [hr]; exact hb1
  · rw [hn]; exact hb2
  · rw [hn]; exact hb1

/-- Instance of C9: with the codes -1 and -2, a machine awaiting the reply to a
token telegram answers a second `pb_sdr` call with busy and is unchanged. -/
theorem C9_busy_while_in_flight_witness :
    pb_sdr (fun _ => true) ⟨.AwaitingReply, some .SDR, [0x10, 1, 2], [0x10, 1, 2]⟩ [0xE5] =
      (.Busy, ⟨.AwaitingReply, some .SDR, [0x10, 1, 2], [0x10, 1, 2]⟩) ∧
    (pb_sdn (fun _ => true) ⟨.AwaitingReply, some .SDR, [0x10, 1, 2], [0x10, 1, 2]⟩
      [0xE5]).1.code ⟨-1, -2⟩ < 0 :=
  have h := C9_busy_while_in_flight ⟨-1, -2⟩ (fun _ => true)
    ⟨.AwaitingReply, some .SDR, [0x10, 1, 2], [0x10, 1, 2]⟩ [0xE5]
    (by decide) (Or.inr rfl)
  ⟨h.1, h.2.2.2.2.1⟩

end Profibus
